import Mathlib

/-!
Shallow embedding of the plain-text ("simple") output renderer of an etcd
command-line client, `etcdctl/ctlv3/command/printer_simple.go`, together with
proofs about its formatting rules.

Modelling conventions:
* Go byte slices (`[]byte`) are `List Nat`, each element a byte value.
* Go strings are Lean `String`s; a raw byte slice printed with `%s` is the
  string whose characters are the byte values (`rawStr`).
* Each printer method is a pure function from its inputs to the text it
  emits; output is a pair `(stdout, stderr)` of the text written to the two
  streams (`Output`).  `fmt.Println`/`fmt.Printf` append to the first
  component, `fmt.Fprintf(os.Stderr, ...)` to the second.
* Go's `%d` on integers is `intDec`, `%016x` is `hex16`, `%v` on a `[]string`
  is `goStrSliceV` (Go's fmt renders a string slice as the elements separated
  by single spaces inside square brackets).
* A Go nil-vs-empty slice distinction that the code branches on
  (`r.Perm == nil`) is modelled with `Option (List _)`.
-/

namespace EtcdSimple

/-- One lower-case hexadecimal digit character for a value `d < 16`,
as produced by Go's `%x`. -/
def hexDigit (d : Nat) : Char :=
  if d < 10 then Char.ofNat (48 + d) else Char.ofNat (87 + d)

/-- Fuel-driven big-endian hexadecimal digit list of a natural number. -/
def natHexCore : Nat → Nat → List Char
  | 0, _ => []
  | fuel + 1, n =>
    if n < 16 then [hexDigit n]
    else natHexCore fuel (n / 16) ++ [hexDigit (n % 16)]

/-- Hexadecimal digit list of `n` (at least one digit), as Go's `%x`. -/
def natHexDigits (n : Nat) : List Char :=
  natHexCore (n + 1) n

/-- Go's `%016x`: lower-case hexadecimal, left-padded with zeros to 16. -/
def hex16 (n : Nat) : String :=
  String.mk (List.replicate (16 - (natHexDigits n).length) '0' ++ natHexDigits n)

/-- Fuel-driven decimal digit list of a natural number. -/
def natDecCore : Nat → Nat → List Char
  | 0, _ => []
  | fuel + 1, n =>
    if n < 10 then [Char.ofNat (48 + n)]
    else natDecCore fuel (n / 10) ++ [Char.ofNat (48 + n % 10)]

/-- Decimal rendering of a natural number, as Go's `%d`. -/
def natDec (n : Nat) : String :=
  String.mk (natDecCore (n + 1) n)

/-- Decimal rendering of an integer, as Go's `%d` on a signed integer. -/
def intDec (i : Int) : String :=
  if i < 0 then "-" ++ natDec i.natAbs else natDec i.natAbs

/-- A Go `[]byte` printed raw with `%s`: each byte becomes one character. -/
def rawStr (bs : List Nat) : String :=
  String.mk (bs.map Char.ofNat)

/-- Lower-case hex encoding of a byte sequence: two digits per byte, no
separators and no added markers. -/
def hexStr (bs : List Nat) : String :=
  String.mk (bs.foldr (fun b acc => hexDigit (b / 16 % 16) :: hexDigit (b % 16) :: acc) [])

/-- Go's `%v` of a `[]string`: elements separated by single spaces inside
square brackets. -/
def goStrSliceV (ks : List String) : String :=
  "[" ++ String.intercalate " " ks ++ "]"

/-- Substring relation on strings, via the infix relation on char lists. -/
def strContains (s pat : String) : Prop :=
  pat.data <:+: s.data

instance (s pat : String) : Decidable (strContains s pat) := by
  unfold strContains
  infer_instance

/-- Number of newline characters in a string; a piece of emitted text that
ends in a newline and has newline-count 1 is exactly one output line. -/
def lineCount (s : String) : Nat :=
  s.data.count '\n'

/-- Text written by one printer call: the first component goes to standard
output, the second to standard error. -/
abbrev Output : Type := String × String

instance : Append Output := ⟨fun a b => (a.1 ++ b.1, a.2 ++ b.2)⟩

/-- Text emitted on standard output only (`fmt.Println` / `fmt.Printf`). -/
def emitOut (s : String) : Output := (s, "")

/-- Text emitted on standard error only (`fmt.Fprintf(os.Stderr, ...)`). -/
def emitErr (s : String) : Output := ("", s)

/-! ## Data model -/

/-- A key-value pair as carried by get/put/delete/watch responses; only the
fields the simple printer reads. -/
structure KeyValue where
  key : List Nat
  value : List Nat
deriving DecidableEq

/-- The `simplePrinter` receiver: the immutable formatter configuration set
from the CLI flags (`--hex`, `--print-value-only`). -/
structure SimplePrinter where
  isHex : Bool
  valueOnly : Bool
deriving DecidableEq

/-- A `v3.DeleteResponse`: deleted-key count and previous key-values. -/
structure DeleteResponse where
  deleted : Nat
  prevKvs : List KeyValue
deriving DecidableEq

/-- A `v3.GetResponse`: the returned key-values. -/
structure GetResponse where
  kvs : List KeyValue
deriving DecidableEq

/-- A `v3.PutResponse`: the optional previous key-value. -/
structure PutResponse where
  prevKv : Option KeyValue
deriving DecidableEq

/-- One transaction sub-result: the tagged union `pb.ResponseOp.Response`.
The `unknown` case carries the raw `%+v` rendering of a sub-result whose tag
the dispatcher does not recognize. -/
inductive ResponseOp where
  | deleteRange : DeleteResponse → ResponseOp
  | put : PutResponse → ResponseOp
  | range : GetResponse → ResponseOp
  | unknown : String → ResponseOp
deriving DecidableEq

/-- A `v3.TxnResponse`: the succeeded flag and the ordered sub-results. -/
structure TxnResponse where
  succeeded : Bool
  responses : List ResponseOp
deriving DecidableEq

/-- One watch event: its type tag rendered as text, the optional previous
key-value and the current key-value. -/
structure Event where
  typeText : String
  prevKv : Option KeyValue
  kv : KeyValue
deriving DecidableEq

/-- A `v3.WatchResponse`: the events. -/
structure WatchResponse where
  events : List Event
deriving DecidableEq

/-- A `v3.LeaseGrantResponse`: lease id and granted TTL. -/
structure LeaseGrantResponse where
  id : Nat
  ttl : Int
deriving DecidableEq

/-- A `v3.LeaseKeepAliveResponse`: lease id and TTL. -/
structure LeaseKeepAliveResponse where
  id : Nat
  ttl : Int
deriving DecidableEq

/-- A `v3.LeaseTimeToLiveResponse`: lease id, granted TTL, remaining TTL
(`-1` is the expired sentinel) and attached keys as byte sequences. -/
structure LeaseTimeToLiveResponse where
  id : Nat
  grantedTTL : Int
  ttl : Int
  keys : List (List Nat)
deriving DecidableEq

/-- One lease status entry of a `v3.LeaseLeasesResponse`. -/
structure LeaseStatus where
  id : Nat
deriving DecidableEq

/-- A `v3.LeaseLeasesResponse`: the leases. -/
structure LeaseLeasesResponse where
  leases : List LeaseStatus
deriving DecidableEq

/-- Modelled from the spec: the per-endpoint health result `epHealth`
(declared elsewhere in the repository) — the endpoint name, the error string
(empty means healthy) and the elapsed duration in its rendered text form. -/
structure EpHealth where
  ep : String
  error : String
  took : String
deriving DecidableEq

/-- Permission kind of an access-control entry (`v3.PermRead`,
`v3.PermWrite`, `v3.PermReadWrite`). -/
inductive PermType where
  | read
  | write
  | readwrite
deriving DecidableEq

/-- One access-control entry: key range and permission kind. -/
structure Permission where
  key : List Nat
  rangeEnd : List Nat
  permType : PermType
deriving DecidableEq

/-- A `v3.AuthRoleGetResponse`.  `perm = none` models a Go nil slice,
`perm = some l` a non-nil slice with entries `l`; the code branches on
`r.Perm == nil`, which an empty non-nil slice does not satisfy. -/
structure AuthRoleGetResponse where
  perm : Option (List Permission)
deriving DecidableEq

/-- A `v3.AuthUserGetResponse`: the user's roles. -/
structure AuthUserGetResponse where
  roles : List String
deriving DecidableEq

/-- A `v3.AuthStatusResponse`: enabled flag and auth revision. -/
structure AuthStatusResponse where
  enabled : Bool
  authRevision : Nat
deriving DecidableEq

/-! ## Key/Value Encoder and prefix range end -/

/-- Modelled from the spec: the Key/Value Encoder `printKV` (declared in a
repository file outside the provided sources).  If `isHex` is set, key and
value are rendered as lower-case hexadecimal digit pairs with no separators
or added markers, otherwise as their raw bytes verbatim; if `valueOnly` is
set only the value line is emitted, otherwise a key line then a value line. -/
def printKV (isHex valueOnly : Bool) (kv : KeyValue) : String :=
  let enc : List Nat → String := fun bs => if isHex then hexStr bs else rawStr bs
  (if valueOnly then "" else enc kv.key ++ "\n") ++ enc kv.value ++ "\n"

/-- Modelled from the spec: `v3.GetPrefixRangeEnd` (declared in the client
library outside the provided sources) — the canonical prefix range end of a
key: increment the last byte that is not `0xFF` and drop all trailing `0xFF`
bytes; for a key consisting entirely of `0xFF` bytes no bounded successor
exists and the result is empty. -/
def getPrefixRangeEnd (key : List Nat) : List Nat :=
  match key.reverse.dropWhile (fun b => b == 255) with
  | [] => []
  | b :: rest => rest.reverse ++ [b + 1]

/-- The constant `rootRole`. -/
def rootRole : String := "root"

set_option linter.unusedVariables false

namespace SimplePrinter

/-- `simplePrinter.Del`: the deleted count, then the previous key-values. -/
def Del (s : SimplePrinter) (resp : DeleteResponse) : Output :=
  emitOut (natDec resp.deleted ++ "\n" ++
    resp.prevKvs.foldl (fun acc kv => acc ++ printKV s.isHex s.valueOnly kv) "")

/-- `simplePrinter.Get`: the returned key-values in order. -/
def Get (s : SimplePrinter) (resp : GetResponse) : Output :=
  emitOut (resp.kvs.foldl (fun acc kv => acc ++ printKV s.isHex s.valueOnly kv) "")

/-- `simplePrinter.Put`: `OK`, then the previous key-value when present. -/
def Put (s : SimplePrinter) (r : PutResponse) : Output :=
  emitOut ("OK\n" ++
    match r.prevKv with
    | some kv => printKV s.isHex s.valueOnly kv
    | none => "")

/-- The body of the `switch` in `simplePrinter.Txn`: dispatch one sub-result
to the Delete, Put or Get rule by its tag; an unrecognized tag yields the
diagnostic line. -/
def subResultOutput (s : SimplePrinter) : ResponseOp → Output
  | .deleteRange d => s.Del d
  | .put p => s.Put p
  | .range g => s.Get g
  | .unknown raw => emitOut ("unexpected response " ++ raw ++ "\n")

/-- `simplePrinter.Txn`: the success/failure line, then for each sub-result
a blank separator line followed by its dispatched output. -/
def Txn (s : SimplePrinter) (resp : TxnResponse) : Output :=
  emitOut (if resp.succeeded then "SUCCESS\n" else "FAILURE\n") ++
  resp.responses.foldl (fun acc r => acc ++ emitOut "\n" ++ s.subResultOutput r) ("", "")

/-- `simplePrinter.Watch`: event type, optional previous key-value, current
key-value, for each event in order. -/
def Watch (s : SimplePrinter) (resp : WatchResponse) : Output :=
  emitOut (resp.events.foldl (fun acc e =>
    acc ++ e.typeText ++ "\n" ++
    (match e.prevKv with
     | some kv => printKV s.isHex s.valueOnly kv
     | none => "") ++
    printKV s.isHex s.valueOnly e.kv) "")

/-- `simplePrinter.Grant`. -/
def Grant (s : SimplePrinter) (resp : LeaseGrantResponse) : Output :=
  emitOut ("lease " ++ hex16 resp.id ++ " granted with TTL(" ++ intDec resp.ttl ++ "s)\n")

/-- `simplePrinter.Revoke`. -/
def Revoke (s : SimplePrinter) (id : Nat) : Output :=
  emitOut ("lease " ++ hex16 id ++ " revoked\n")

/-- `simplePrinter.KeepAlive`. -/
def KeepAlive (s : SimplePrinter) (resp : LeaseKeepAliveResponse) : Output :=
  emitOut ("lease " ++ hex16 resp.id ++ " keepalived with TTL(" ++ intDec resp.ttl ++ ")\n")

/-- `simplePrinter.TimeToLive`: the expired branch returns early with the
"already expired" line; otherwise granted and remaining TTL, with the
attached keys appended in raw text form when `keys` is set. -/
def TimeToLive (s : SimplePrinter) (resp : LeaseTimeToLiveResponse) (keys : Bool) : Output :=
  if resp.grantedTTL = 0 ∧ resp.ttl = -1 then
    emitOut ("lease " ++ hex16 resp.id ++ " already expired\n")
  else
    let txt := "lease " ++ hex16 resp.id ++ " granted with TTL(" ++
      intDec resp.grantedTTL ++ "s), remaining(" ++ intDec resp.ttl ++ "s)"
    let txt := if keys then
        txt ++ ", attached keys(" ++ goStrSliceV (resp.keys.map rawStr) ++ ")"
      else txt
    emitOut (txt ++ "\n")

/-- `simplePrinter.Leases`. -/
def Leases (s : SimplePrinter) (resp : LeaseLeasesResponse) : Output :=
  emitOut ("found " ++ natDec resp.leases.length ++ " leases\n" ++
    resp.leases.foldl (fun acc item => acc ++ hex16 item.id ++ "\n") "")

/-- `simplePrinter.EndpointHealth`: healthy endpoints go to standard output,
unhealthy ones to standard error, in batch order per stream. -/
def EndpointHealth (s : SimplePrinter) (hs : List EpHealth) : Output :=
  hs.foldl (fun acc h =>
    if h.error = "" then
      acc ++ emitOut (h.ep ++ " is healthy: successfully committed proposal: took = " ++
        h.took ++ "\n")
    else
      acc ++ emitErr (h.ep ++ " is unhealthy: failed to commit proposal: " ++
        h.error ++ "\n")) ("", "")

/-- The table-flattening printers (`MemberList`, `EndpointStatus`,
`EndpointHashKV`): rows from the external table-building collaborator are
joined with `", "` and printed one row per line.  The row data stands in for
the opaque collaborator's output. -/
def printRows (s : SimplePrinter) (rows : List (List String)) : Output :=
  emitOut (rows.foldl (fun acc row => acc ++ String.intercalate ", " row ++ "\n") "")

/-- `simplePrinter.RoleAdd`. -/
def RoleAdd (s : SimplePrinter) (role : String) : Output :=
  emitOut ("Role " ++ role ++ " created\n")

/-- The `printRange` closure inside `simplePrinter.RoleGet`: the range text
(open-ended sentinel or bounded), the prefix annotation when the range end
is the key's prefix range end and the key is non-empty, then a newline. -/
def printRange (perm : Permission) : String :=
  (if perm.rangeEnd ≠ [0] then
    "\t[" ++ rawStr perm.key ++ ", " ++ rawStr perm.rangeEnd ++ ")"
   else
    "\t[" ++ rawStr perm.key ++ ", <open ended>") ++
  (if getPrefixRangeEnd perm.key = perm.rangeEnd ∧ perm.key.length > 0 then
    " (prefix " ++ rawStr perm.key ++ ")"
   else "") ++
  "\n"

/-- One iteration of the permission-listing loops in `simplePrinter.RoleGet`:
entries of a qualifying kind are printed as a bare key when `rangeEnd` is
empty and through `printRange` otherwise; other entries print nothing. -/
def permLine (wanted : Permission → Bool) (perm : Permission) : String :=
  if wanted perm then
    if perm.rangeEnd = [] then "\t" ++ rawStr perm.key ++ "\n" else printRange perm
  else ""

/-- Kind filter of the read listing: `PermRead` or `PermReadWrite`. -/
def isReadPerm (perm : Permission) : Bool :=
  perm.permType = PermType.read ∨ perm.permType = PermType.readwrite

/-- Kind filter of the write listing: `PermWrite` or `PermReadWrite`. -/
def isWritePerm (perm : Permission) : Bool :=
  perm.permType = PermType.write ∨ perm.permType = PermType.readwrite

/-- `simplePrinter.RoleGet`: the role-name line; the fixed open-ended block
for the root role with a nil permission slice; otherwise the read listing
then the write listing over the permission entries. -/
def RoleGet (s : SimplePrinter) (role : String) (r : AuthRoleGetResponse) : Output :=
  emitOut ("Role " ++ role ++ "\n" ++
    (if rootRole = role ∧ r.perm = none then
      "KV Read:\n\t[, <open ended>\nKV Write:\n\t[, <open ended>\n"
     else
      "KV Read:\n" ++
      (r.perm.getD []).foldl (fun acc perm => acc ++ permLine isReadPerm perm) "" ++
      "KV Write:\n" ++
      (r.perm.getD []).foldl (fun acc perm => acc ++ permLine isWritePerm perm) ""))

/-- `simplePrinter.RoleList`. -/
def RoleList (s : SimplePrinter) (roles : List String) : Output :=
  emitOut (roles.foldl (fun acc role => acc ++ role ++ "\n") "")

/-- `simplePrinter.RoleDelete`. -/
def RoleDelete (s : SimplePrinter) (role : String) : Output :=
  emitOut ("Role " ++ role ++ " deleted\n")

/-- `simplePrinter.RoleGrantPermission`. -/
def RoleGrantPermission (s : SimplePrinter) (role : String) : Output :=
  emitOut ("Role " ++ role ++ " updated\n")

/-- `simplePrinter.RoleRevokePermission`: the template depends on whether the
revoked range is a single key, a bounded range, or open-ended. -/
def RoleRevokePermission (s : SimplePrinter) (role key endStr : String) : Output :=
  if endStr.length = 0 then
    emitOut ("Permission of key " ++ key ++ " is revoked from role " ++ role ++ "\n")
  else if endStr ≠ "\x00" then
    emitOut ("Permission of range [" ++ key ++ ", " ++ endStr ++
      ") is revoked from role " ++ role ++ "\n")
  else
    emitOut ("Permission of range [" ++ key ++
      ", <open ended> is revoked from role " ++ role ++ "\n")

/-- `simplePrinter.UserAdd`. -/
def UserAdd (s : SimplePrinter) (name : String) : Output :=
  emitOut ("User " ++ name ++ " created\n")

/-- `simplePrinter.UserGet`. -/
def UserGet (s : SimplePrinter) (name : String) (r : AuthUserGetResponse) : Output :=
  emitOut ("User: " ++ name ++ "\n" ++ "Roles:" ++
    r.roles.foldl (fun acc role => acc ++ " " ++ role) "" ++ "\n")

/-- `simplePrinter.UserChangePassword`. -/
def UserChangePassword (s : SimplePrinter) : Output :=
  emitOut "Password updated\n"

/-- `simplePrinter.UserGrantRole`. -/
def UserGrantRole (s : SimplePrinter) (user role : String) : Output :=
  emitOut ("Role " ++ role ++ " is granted to user " ++ user ++ "\n")

/-- `simplePrinter.UserRevokeRole`. -/
def UserRevokeRole (s : SimplePrinter) (user role : String) : Output :=
  emitOut ("Role " ++ role ++ " is revoked from user " ++ user ++ "\n")

/-- `simplePrinter.UserDelete`. -/
def UserDelete (s : SimplePrinter) (user : String) : Output :=
  emitOut ("User " ++ user ++ " deleted\n")

/-- `simplePrinter.UserList`. -/
def UserList (s : SimplePrinter) (users : List String) : Output :=
  emitOut (users.foldl (fun acc user => acc ++ user ++ "\n") "")

/-- `simplePrinter.AuthStatus`. -/
def AuthStatus (s : SimplePrinter) (r : AuthStatusResponse) : Output :=
  emitOut ("Authentication Status: " ++ (if r.enabled then "true" else "false") ++ "\n" ++
    "AuthRevision: " ++ natDec r.authRevision ++ "\n")

/-- The range text proper of `printRange`, before the optional prefix
annotation: open-ended for the one-byte NUL sentinel, bounded otherwise. -/
def rangeText (perm : Permission) : String :=
  if perm.rangeEnd ≠ [0] then
    "\t[" ++ rawStr perm.key ++ ", " ++ rawStr perm.rangeEnd ++ ")"
  else
    "\t[" ++ rawStr perm.key ++ ", <open ended>"

/-- The per-entry text of the permission listings in `RoleGet`: bare key for
a single-key grant, `printRange` for a range grant. -/
def permEntryText (perm : Permission) : String :=
  if perm.rangeEnd = [] then "\t" ++ rawStr perm.key ++ "\n" else printRange perm

/-- The contribution of one endpoint to the standard-output stream of
`EndpointHealth`. -/
def healthOutLine (h : EpHealth) : String :=
  if h.error = "" then
    h.ep ++ " is healthy: successfully committed proposal: took = " ++ h.took ++ "\n"
  else ""

/-- The contribution of one endpoint to the standard-error stream of
`EndpointHealth`. -/
def healthErrLine (h : EpHealth) : String :=
  if h.error = "" then ""
  else h.ep ++ " is unhealthy: failed to commit proposal: " ++ h.error ++ "\n"

end SimplePrinter

/-! ## Helper combinators -/

/-- Concatenation of a list of strings, in order. -/
def strJoin : List String → String
  | [] => ""
  | x :: xs => x ++ strJoin xs

/-- Concatenation of a list of outputs, in order and per stream. -/
def outJoin : List Output → Output
  | [] => ("", "")
  | x :: xs => x ++ outJoin xs

/-- Characters Go's `%x` can produce: a decimal digit or `a`–`f`. -/
def hexCh (c : Char) : Prop :=
  ('0' ≤ c ∧ c ≤ '9') ∨ ('a' ≤ c ∧ c ≤ 'f')

instance (c : Char) : Decidable (hexCh c) := by unfold hexCh; infer_instance

/-- Characters of a decimal rendering of a natural number. -/
def digitCh (c : Char) : Prop := '0' ≤ c ∧ c ≤ '9'

instance (c : Char) : Decidable (digitCh c) := by unfold digitCh; infer_instance

/-! ## Helper lemmas -/

theorem Output.append_def (a b : Output) : a ++ b = (a.1 ++ b.1, a.2 ++ b.2) := rfl

theorem Output.append_assoc (a b c : Output) : a ++ b ++ c = a ++ (b ++ c) := by
  simp [Output.append_def, String.append_assoc]

theorem emitOut_fst (s : String) : (emitOut s).1 = s := rfl

theorem emitOut_snd (s : String) : (emitOut s).2 = "" := rfl

theorem foldl_strAppend (f : α → String) :
    ∀ (l : List α) (init : String),
      l.foldl (fun acc x => acc ++ f x) init = init ++ strJoin (l.map f)
  | [], init => by simp [strJoin]
  | x :: xs, init => by
    simp only [List.foldl_cons, List.map_cons, strJoin]
    rw [foldl_strAppend f xs (init ++ f x), String.append_assoc]

theorem foldl_outAppend (f : α → Output) :
    ∀ (l : List α) (init : Output),
      l.foldl (fun acc x => acc ++ f x) init = init ++ outJoin (l.map f)
  | [], init => by simp [outJoin, Output.append_def]
  | x :: xs, init => by
    simp only [List.foldl_cons, List.map_cons, outJoin]
    rw [foldl_outAppend f xs (init ++ f x), Output.append_assoc]

theorem outJoin_fst : ∀ l : List Output, (outJoin l).1 = strJoin (l.map Prod.fst)
  | [] => rfl
  | x :: xs => by simp [outJoin, strJoin, Output.append_def, outJoin_fst xs]

theorem outJoin_snd : ∀ l : List Output, (outJoin l).2 = strJoin (l.map Prod.snd)
  | [] => rfl
  | x :: xs => by simp [outJoin, strJoin, Output.append_def, outJoin_snd xs]

theorem strJoin_eq_empty : ∀ l : List String, (∀ x ∈ l, x = "") → strJoin l = ""
  | [], _ => rfl
  | x :: xs, h => by
    have hx := h x (by simp)
    have hxs := strJoin_eq_empty xs (fun y hy => h y (by simp [hy]))
    simp [strJoin, hx, hxs]

/-- A pattern sits as a contiguous block inside a concatenation. -/
theorem strContains_intro (a pat b : String) : strContains (a ++ pat ++ b) pat :=
  ⟨a.data, b.data, by simp [String.data_append]⟩

theorem strContains_of_eq {s pat : String} (a b : String) (h : s = a ++ pat ++ b) :
    strContains s pat := h ▸ strContains_intro a pat b

/-- If some character of the pattern does not occur in the string, the
pattern is not a substring. -/
theorem not_strContains_of_char {s pat : String} (c : Char)
    (hc : c ∈ pat.data) (hs : c ∉ s.data) : ¬ strContains s pat :=
  fun hinf => hs (hinf.subset hc)

theorem hexDigit_hexCh : ∀ d, d < 16 → hexCh (hexDigit d) := by decide

theorem natHexCore_chars : ∀ (fuel n : Nat), ∀ c ∈ natHexCore fuel n, hexCh c := by
  intro fuel
  induction fuel with
  | zero => intro n c hc; simp [natHexCore] at hc
  | succ fuel ih =>
    intro n c hc
    simp only [natHexCore] at hc
    by_cases h : n < 16
    · simp [h] at hc
      exact hc ▸ hexDigit_hexCh n h
    · simp [h, List.mem_append] at hc
      rcases hc with hc | hc
      · exact ih (n / 16) c hc
      · exact hc ▸ hexDigit_hexCh (n % 16) (Nat.mod_lt n (by omega))

theorem hex16_chars (n : Nat) : ∀ c ∈ (hex16 n).data, hexCh c := by
  intro c hc
  have : c ∈ List.replicate (16 - (natHexDigits n).length) '0' ++ natHexDigits n := hc
  rcases List.mem_append.mp this with h | h
  · have := (List.mem_replicate.mp h).2
    subst this
    decide
  · exact natHexCore_chars (n + 1) n c h

theorem natDecCore_chars : ∀ (fuel n : Nat), ∀ c ∈ natDecCore fuel n, digitCh c := by
  intro fuel
  induction fuel with
  | zero => intro n c hc; simp [natDecCore] at hc
  | succ fuel ih =>
    intro n c hc
    simp only [natDecCore] at hc
    by_cases h : n < 10
    · simp [h] at hc
      subst hc
      have : ∀ m, m < 10 → digitCh (Char.ofNat (48 + m)) := by decide
      exact this n h
    · simp [h, List.mem_append] at hc
      rcases hc with hc | hc
      · exact ih (n / 10) c hc
      · subst hc
        have : ∀ m, m < 10 → digitCh (Char.ofNat (48 + m)) := by decide
        exact this (n % 10) (Nat.mod_lt n (by omega))

theorem natDec_chars (n : Nat) : ∀ c ∈ (natDec n).data, digitCh c :=
  fun c hc => natDecCore_chars (n + 1) n c hc

theorem intDec_chars (i : Int) : ∀ c ∈ (intDec i).data, digitCh c ∨ c = '-' := by
  intro c hc
  unfold intDec at hc
  by_cases h : i < 0
  · simp [h] at hc
    rcases hc with h1 | h1
    · exact Or.inr h1
    · exact Or.inl (natDec_chars _ c h1)
  · simp [h] at hc
    exact Or.inl (natDec_chars _ c hc)

theorem str_length_zero {s : String} (h : s.length = 0) : s = "" := by
  cases s with
  | mk d =>
    simp [String.length] at h
    simp [h]

theorem Output.empty_append (a : Output) : (("", "") : Output) ++ a = a := by
  cases a
  simp [Output.append_def]

theorem Output.append_empty (a : Output) : a ++ (("", "") : Output) = a := by
  cases a
  simp [Output.append_def]

theorem outJoin_append : ∀ l₁ l₂ : List Output, outJoin (l₁ ++ l₂) = outJoin l₁ ++ outJoin l₂
  | [], l₂ => by simp [outJoin, Output.empty_append]
  | x :: xs, l₂ => by
    show x ++ outJoin (xs ++ l₂) = x ++ outJoin xs ++ outJoin l₂
    rw [outJoin_append xs l₂, Output.append_assoc]

/-- An all-`0xFF` key (the empty key included) has no bounded successor: the
spec-modelled prefix range end is empty. -/
theorem getPrefixRangeEnd_eq_nil (key : List Nat) (h : ∀ b ∈ key, b = 255) :
    getPrefixRangeEnd key = [] := by
  unfold getPrefixRangeEnd
  have hd : key.reverse.dropWhile (fun b => b == 255) = [] := by
    rw [List.dropWhile_eq_nil_iff]
    intro x hx
    simp [h x (List.mem_reverse.mp hx)]
  rw [hd]

/-- The prefix range end of a key is never the one-byte NUL sentinel: its
last byte is an incremented byte, hence positive. -/
theorem getPrefixRangeEnd_ne_sentinel (key : List Nat) : getPrefixRangeEnd key ≠ [0] := by
  intro h
  unfold getPrefixRangeEnd at h
  cases hd : key.reverse.dropWhile (fun b => b == 255) with
  | nil => rw [hd] at h; simp at h
  | cons b rest =>
    rw [hd] at h
    rcases rest with _ | ⟨c, cs⟩
    · simp at h
    · have := congrArg List.length h
      simp at this

namespace SimplePrinter

/-- Characterization of `Txn` as a map over the sub-results: the status
line, then one blank-line-plus-dispatched-block per sub-result in order. -/
theorem txn_eq (s : SimplePrinter) (resp : TxnResponse) :
    s.Txn resp =
      emitOut (if resp.succeeded then "SUCCESS\n" else "FAILURE\n") ++
      outJoin (resp.responses.map fun r => emitOut "\n" ++ s.subResultOutput r) := by
  unfold Txn
  have hf : (fun (acc : Output) r => acc ++ emitOut "\n" ++ s.subResultOutput r) =
      fun (acc : Output) r => acc ++ (emitOut "\n" ++ s.subResultOutput r) := by
    funext acc r
    rw [Output.append_assoc]
  rw [hf, foldl_outAppend (fun r => emitOut "\n" ++ s.subResultOutput r),
    Output.empty_append]

theorem subResultOutput_snd (s : SimplePrinter) (r : ResponseOp) :
    (s.subResultOutput r).2 = "" := by
  cases r <;> rfl

theorem txn_snd (s : SimplePrinter) (resp : TxnResponse) : (s.Txn resp).2 = "" := by
  rw [txn_eq]
  show "" ++ (outJoin _).2 = ""
  rw [outJoin_snd, String.empty_append]
  apply strJoin_eq_empty
  intro x hx
  rcases List.mem_map.mp hx with ⟨y, hy1, hy2⟩
  rcases List.mem_map.mp hy1 with ⟨r, _, hr⟩
  subst hr hy2
  show "" ++ (s.subResultOutput r).2 = ""
  rw [subResultOutput_snd, String.empty_append]

theorem permLine_eq (w : Permission → Bool) (perm : Permission) :
    permLine w perm = if w perm then permEntryText perm else "" := rfl

theorem strJoin_map_ite (w : α → Bool) (f : α → String) :
    ∀ l : List α,
      strJoin (l.map fun x => if w x then f x else "") = strJoin ((l.filter w).map f)
  | [] => rfl
  | x :: xs => by
    by_cases hx : w x <;>
      simp [List.filter_cons, hx, strJoin, strJoin_map_ite w f xs, String.empty_append]

/-- Characterization of `RoleGet` outside the root-with-nil-permissions
branch: the read listing is the kind-filtered map over the entries, then the
write listing likewise, both in entry order. -/
theorem roleGet_general (s : SimplePrinter) (role : String) (r : AuthRoleGetResponse)
    (h : ¬(rootRole = role ∧ r.perm = none)) :
    s.RoleGet role r =
      emitOut ("Role " ++ role ++ "\n" ++
        ("KV Read:\n" ++
          strJoin (((r.perm.getD []).filter isReadPerm).map permEntryText) ++
          ("KV Write:\n" ++
            strJoin (((r.perm.getD []).filter isWritePerm).map permEntryText)))) := by
  unfold RoleGet
  rw [if_neg h]
  rw [foldl_strAppend (permLine isReadPerm), foldl_strAppend (permLine isWritePerm),
    String.empty_append, String.empty_append]
  have h1 : ((r.perm.getD []).map (permLine isReadPerm)) =
      (r.perm.getD []).map fun p => if isReadPerm p then permEntryText p else "" := rfl
  have h2 : ((r.perm.getD []).map (permLine isWritePerm)) =
      (r.perm.getD []).map fun p => if isWritePerm p then permEntryText p else "" := rfl
  rw [h1, h2, strJoin_map_ite, strJoin_map_ite]
  simp [String.append_assoc]

end SimplePrinter

/-! ## Claim theorems -/

open SimplePrinter

/-- C1: the Txn dispatcher first emits exactly one `SUCCESS` line if the
result's succeeded flag is true and one `FAILURE` line otherwise; then, for
each sub-result in order, a blank separator line followed by the Delete,
Put or Get rule's output according to the tag, and for an unrecognized tag a
diagnostic line containing the raw sub-result representation; the loop
continues past an unrecognized tag (splitting the sub-result list anywhere
splits the output accordingly). -/
theorem txn_dispatch_spec (s : SimplePrinter) (resp : TxnResponse) :
    s.Txn resp =
      emitOut (if resp.succeeded then "SUCCESS\n" else "FAILURE\n") ++
        outJoin (resp.responses.map fun r => emitOut "\n" ++ s.subResultOutput r) ∧
    (∀ d, s.subResultOutput (ResponseOp.deleteRange d) = s.Del d) ∧
    (∀ p, s.subResultOutput (ResponseOp.put p) = s.Put p) ∧
    (∀ g, s.subResultOutput (ResponseOp.range g) = s.Get g) ∧
    (∀ raw, s.subResultOutput (ResponseOp.unknown raw) =
      emitOut ("unexpected response " ++ raw ++ "\n")) ∧
    (∀ (b : Bool) (pre post : List ResponseOp) (r : ResponseOp),
      s.Txn ⟨b, pre ++ r :: post⟩ =
        s.Txn ⟨b, pre⟩ ++
          ((emitOut "\n" ++ s.subResultOutput r) ++
            outJoin (post.map fun q => emitOut "\n" ++ s.subResultOutput q))) := by
  refine ⟨txn_eq s resp, fun _ => rfl, fun _ => rfl, fun _ => rfl, fun _ => rfl, ?_⟩
  intro b pre post r
  rw [txn_eq, txn_eq]
  simp only [List.map_append, List.map_cons, outJoin_append, outJoin, Output.append_assoc]

/-- C9: every formatting rule in the embedding is a pure function of its
input and the immutable formatter configuration, so re-running any entry
point on unchanged input with the same configuration yields byte-identical
output on both streams. -/
theorem formatting_deterministic (s : SimplePrinter) :
    (∀ resp, s.Del resp = s.Del resp) ∧
    (∀ resp, s.Get resp = s.Get resp) ∧
    (∀ resp, s.Put resp = s.Put resp) ∧
    (∀ resp, s.Txn resp = s.Txn resp) ∧
    (∀ resp, s.Watch resp = s.Watch resp) ∧
    (∀ resp, s.Grant resp = s.Grant resp) ∧
    (∀ id, s.Revoke id = s.Revoke id) ∧
    (∀ resp, s.KeepAlive resp = s.KeepAlive resp) ∧
    (∀ resp keys, s.TimeToLive resp keys = s.TimeToLive resp keys) ∧
    (∀ resp, s.Leases resp = s.Leases resp) ∧
    (∀ hs, s.EndpointHealth hs = s.EndpointHealth hs) ∧
    (∀ rows, s.printRows rows = s.printRows rows) ∧
    (∀ role, s.RoleAdd role = s.RoleAdd role) ∧
    (∀ role r, s.RoleGet role r = s.RoleGet role r) ∧
    (∀ roles, s.RoleList roles = s.RoleList roles) ∧
    (∀ role, s.RoleDelete role = s.RoleDelete role) ∧
    (∀ role, s.RoleGrantPermission role = s.RoleGrantPermission role) ∧
    (∀ role key e, s.RoleRevokePermission role key e = s.RoleRevokePermission role key e) ∧
    (∀ n, s.UserAdd n = s.UserAdd n) ∧
    (∀ n r, s.UserGet n r = s.UserGet n r) ∧
    (s.UserChangePassword = s.UserChangePassword) ∧
    (∀ u role, s.UserGrantRole u role = s.UserGrantRole u role) ∧
    (∀ u role, s.UserRevokeRole u role = s.UserRevokeRole u role) ∧
    (∀ u, s.UserDelete u = s.UserDelete u) ∧
    (∀ us, s.UserList us = s.UserList us) ∧
    (∀ r, s.AuthStatus r = s.AuthStatus r) ∧
    (∀ hx vo kv, printKV hx vo kv = printKV hx vo kv) ∧
    (∀ perm, printRange perm = printRange perm) :=
  ⟨fun _ => rfl, fun _ => rfl, fun _ => rfl, fun _ => rfl, fun _ => rfl, fun _ => rfl,
   fun _ => rfl, fun _ => rfl, fun _ _ => rfl, fun _ => rfl, fun _ => rfl, fun _ => rfl,
   fun _ => rfl, fun _ _ => rfl, fun _ => rfl, fun _ => rfl, fun _ => rfl,
   fun _ _ _ => rfl, fun _ => rfl, fun _ _ => rfl, rfl, fun _ _ => rfl, fun _ _ => rfl,
   fun _ => rfl, fun _ => rfl, fun _ => rfl, fun _ _ _ => rfl, fun _ => rfl⟩

/-- C8: outside the root-with-nil-permissions branch, the read listing of
`RoleGet` contains exactly the entries of kind Read or ReadWrite and the
write listing exactly those of kind Write or ReadWrite, each in permission
order; a qualifying entry with empty `rangeEnd` is printed as the bare key,
one with non-empty `rangeEnd` through the range formatter `printRange`. -/
theorem roleGet_listings (s : SimplePrinter) (role : String) (r : AuthRoleGetResponse)
    (h : ¬(rootRole = role ∧ r.perm = none)) :
    s.RoleGet role r =
      emitOut ("Role " ++ role ++ "\n" ++
        ("KV Read:\n" ++
          strJoin (((r.perm.getD []).filter isReadPerm).map permEntryText) ++
          ("KV Write:\n" ++
            strJoin (((r.perm.getD []).filter isWritePerm).map permEntryText)))) ∧
    (∀ p : Permission, isReadPerm p = true ↔
      (p.permType = PermType.read ∨ p.permType = PermType.readwrite)) ∧
    (∀ p : Permission, isWritePerm p = true ↔
      (p.permType = PermType.write ∨ p.permType = PermType.readwrite)) ∧
    (∀ p : Permission, p.rangeEnd = [] → permEntryText p = "\t" ++ rawStr p.key ++ "\n") ∧
    (∀ p : Permission, p.rangeEnd ≠ [] → permEntryText p = printRange p) := by
  refine ⟨roleGet_general s role r h, ?_, ?_, ?_, ?_⟩
  · intro p
    simp [isReadPerm]
  · intro p
    simp [isWritePerm]
  · intro p hp
    simp [permEntryText, hp]
  · intro p hp
    simp [permEntryText, hp]

theorem roleGet_listings_witness :
    ¬(rootRole = "r" ∧
        (AuthRoleGetResponse.mk (some [⟨[97], [], PermType.readwrite⟩,
          ⟨[98], [99], PermType.write⟩])).perm = none) ∧
    ((⟨false, false⟩ : SimplePrinter).RoleGet "r"
        ⟨some [⟨[97], [], PermType.readwrite⟩, ⟨[98], [99], PermType.write⟩]⟩ =
      emitOut ("Role " ++ "r" ++ "\n" ++
        ("KV Read:\n" ++
          strJoin ((([⟨[97], [], PermType.readwrite⟩,
            ⟨[98], [99], PermType.write⟩] : List Permission).filter isReadPerm).map
              permEntryText) ++
          ("KV Write:\n" ++
            strJoin ((([⟨[97], [], PermType.readwrite⟩,
              ⟨[98], [99], PermType.write⟩] : List Permission).filter isWritePerm).map
                permEntryText)))) ∧
      (∀ p : Permission, isReadPerm p = true ↔
        (p.permType = PermType.read ∨ p.permType = PermType.readwrite)) ∧
      (∀ p : Permission, isWritePerm p = true ↔
        (p.permType = PermType.write ∨ p.permType = PermType.readwrite)) ∧
      (∀ p : Permission, p.rangeEnd = [] →
        permEntryText p = "\t" ++ rawStr p.key ++ "\n") ∧
      (∀ p : Permission, p.rangeEnd ≠ [] → permEntryText p = printRange p)) :=
  ⟨by decide, roleGet_listings ⟨false, false⟩ "r"
    ⟨some [⟨[97], [], PermType.readwrite⟩, ⟨[98], [99], PermType.write⟩]⟩ (by decide)⟩

/-- C10: for role name exactly `root` with a nil permission list, `RoleGet`
prints the fixed block claiming full open-ended read and write grants and
returns without consulting permission entries; for root with a non-nil
permission list and for every other role, the normal per-entry filtering and
range formatting applies. -/
theorem roleGet_root_nil_spec (s : SimplePrinter) :
    s.RoleGet "root" ⟨none⟩ =
      emitOut ("Role root\nKV Read:\n\t[, <open ended>\nKV Write:\n\t[, <open ended>\n") ∧
    (∀ (role : String) (r : AuthRoleGetResponse), ¬(role = "root" ∧ r.perm = none) →
      s.RoleGet role r =
        emitOut ("Role " ++ role ++ "\n" ++
          ("KV Read:\n" ++
            strJoin (((r.perm.getD []).filter isReadPerm).map permEntryText) ++
            ("KV Write:\n" ++
              strJoin (((r.perm.getD []).filter isWritePerm).map permEntryText))))) := by
  constructor
  · unfold SimplePrinter.RoleGet
    rw [if_pos ⟨rfl, rfl⟩]
    simp [emitOut, String.append_assoc]
  · intro role r h
    apply roleGet_general
    intro hc
    exact h ⟨hc.1.symm, hc.2⟩

theorem roleGet_root_nil_witness :
    ((⟨false, false⟩ : SimplePrinter).RoleGet "root" ⟨none⟩ =
      emitOut ("Role root\nKV Read:\n\t[, <open ended>\nKV Write:\n\t[, <open ended>\n")) ∧
    ¬(("alice" : String) = "root" ∧ (AuthRoleGetResponse.mk none).perm = none) ∧
    ((⟨false, false⟩ : SimplePrinter).RoleGet "alice" ⟨none⟩ =
      emitOut ("Role " ++ "alice" ++ "\n" ++
        ("KV Read:\n" ++
          strJoin ((((none : Option (List Permission)).getD []).filter isReadPerm).map
            permEntryText) ++
          ("KV Write:\n" ++
            strJoin ((((none : Option (List Permission)).getD []).filter isWritePerm).map
              permEntryText))))) :=
  ⟨(roleGet_root_nil_spec ⟨false, false⟩).1, by decide,
    (roleGet_root_nil_spec ⟨false, false⟩).2 "alice" ⟨none⟩ (by decide)⟩

/-- C2: the range formatter appends the ` (prefix <key>)` suffix if and only
if the key is non-empty and `rangeEnd` equals the canonical prefix range end
of the key; for a key consisting entirely of `0xFF` bytes the prefix range
end is empty, never matches a non-empty `rangeEnd`, and no suffix is
appended. -/
theorem printRange_prefix_detection (perm : Permission) (hne : perm.rangeEnd ≠ []) :
    (printRange perm =
      rangeText perm ++
        (if perm.key ≠ [] ∧ perm.rangeEnd = getPrefixRangeEnd perm.key then
          " (prefix " ++ rawStr perm.key ++ ")"
         else "") ++ "\n") ∧
    ((∀ b ∈ perm.key, b = 255) →
      getPrefixRangeEnd perm.key = [] ∧ printRange perm = rangeText perm ++ "\n") := by
  have hcond : (getPrefixRangeEnd perm.key = perm.rangeEnd ∧ perm.key.length > 0) ↔
      (perm.key ≠ [] ∧ perm.rangeEnd = getPrefixRangeEnd perm.key) := by
    constructor
    · rintro ⟨h1, h2⟩
      exact ⟨List.length_pos.mp h2, h1.symm⟩
    · rintro ⟨h1, h2⟩
      exact ⟨h2.symm, List.length_pos.mpr h1⟩
  constructor
  · have hif : (if getPrefixRangeEnd perm.key = perm.rangeEnd ∧ perm.key.length > 0 then
        " (prefix " ++ rawStr perm.key ++ ")"
       else "") =
        (if perm.key ≠ [] ∧ perm.rangeEnd = getPrefixRangeEnd perm.key then
          " (prefix " ++ rawStr perm.key ++ ")"
         else "") := if_congr hcond rfl rfl
    unfold SimplePrinter.printRange
    unfold rangeText
    rw [hif]
  · intro h255
    have hg := getPrefixRangeEnd_eq_nil perm.key h255
    refine ⟨hg, ?_⟩
    have hifn : (if getPrefixRangeEnd perm.key = perm.rangeEnd ∧ perm.key.length > 0 then
        " (prefix " ++ rawStr perm.key ++ ")"
       else "") = "" :=
      if_neg (fun hc => hne (hg.symm.trans hc.1).symm)
    unfold SimplePrinter.printRange
    rw [hifn, String.append_empty]
    rfl

theorem printRange_prefix_detection_witness :
    (([98] : List Nat) ≠ []) ∧
    (∀ b ∈ ([255] : List Nat), b = 255) ∧
    (getPrefixRangeEnd [255] = [] ∧
      printRange ⟨[255], [98], PermType.read⟩ = rangeText ⟨[255], [98], PermType.read⟩ ++ "\n") :=
  ⟨by decide, by decide,
    (printRange_prefix_detection ⟨[255], [98], PermType.read⟩ (by decide)).2 (by decide)⟩

/-- C3: for non-empty `rangeEnd`, the range text is
`[<key>, <open ended>` — with no closing token appended by the formatter —
exactly when `rangeEnd` is the one-byte NUL sentinel (in which case no
prefix annotation is ever added, since the prefix range end of a key is
never the sentinel), and `[<key>, <rangeEnd>)` otherwise (followed by the
optional prefix annotation of C2). -/
theorem printRange_sentinel_spec (perm : Permission) (hne : perm.rangeEnd ≠ []) :
    (perm.rangeEnd = [0] →
      printRange perm = "\t[" ++ rawStr perm.key ++ ", <open ended>\n") ∧
    (perm.rangeEnd ≠ [0] →
      printRange perm =
        ("\t[" ++ rawStr perm.key ++ ", " ++ rawStr perm.rangeEnd ++ ")") ++
          (if getPrefixRangeEnd perm.key = perm.rangeEnd ∧ perm.key.length > 0 then
            " (prefix " ++ rawStr perm.key ++ ")"
           else "") ++ "\n") := by
  constructor
  · intro h0
    unfold SimplePrinter.printRange
    rw [if_neg (not_not_intro h0),
      if_neg (fun hc => getPrefixRangeEnd_ne_sentinel perm.key (h0 ▸ hc.1)),
      String.append_empty]
    simp [String.append_assoc]
  · intro hs
    unfold SimplePrinter.printRange
    rw [if_pos hs]

theorem printRange_sentinel_witness :
    (([0] : List Nat) ≠ [] ∧
      printRange ⟨[97], [0], PermType.read⟩ = "\t[" ++ rawStr [97] ++ ", <open ended>\n") ∧
    (([99] : List Nat) ≠ [] ∧
      printRange ⟨[97], [99], PermType.read⟩ =
        ("\t[" ++ rawStr [97] ++ ", " ++ rawStr [99] ++ ")") ++
          (if getPrefixRangeEnd [97] = [99] ∧ ([97] : List Nat).length > 0 then
            " (prefix " ++ rawStr [97] ++ ")"
           else "") ++ "\n") :=
  ⟨⟨by decide,
    (printRange_sentinel_spec ⟨[97], [0], PermType.read⟩ (by decide)).1 (by decide)⟩,
   ⟨by decide,
    (printRange_sentinel_spec ⟨[97], [99], PermType.read⟩ (by decide)).2 (by decide)⟩⟩

/-- C7: each healthy endpoint contributes exactly its success line (with the
elapsed duration) to standard output and nothing to standard error; each
unhealthy endpoint contributes exactly its failure line (including the error
text) to standard error and nothing to standard output; contributions are
per-endpoint and in batch order; and no other printer ever writes to the
error stream. -/
theorem endpointHealth_stream_routing (s : SimplePrinter) (hs : List EpHealth) :
    s.EndpointHealth hs =
      (strJoin (hs.map healthOutLine), strJoin (hs.map healthErrLine)) ∧
    (∀ h : EpHealth, h.error = "" →
      healthOutLine h =
        h.ep ++ " is healthy: successfully committed proposal: took = " ++ h.took ++ "\n" ∧
      healthErrLine h = "") ∧
    (∀ h : EpHealth, h.error ≠ "" →
      healthErrLine h =
        h.ep ++ " is unhealthy: failed to commit proposal: " ++ h.error ++ "\n" ∧
      healthOutLine h = "" ∧
      strContains (healthErrLine h) h.error) ∧
    (∀ r, (s.Del r).2 = "") ∧ (∀ r, (s.Get r).2 = "") ∧ (∀ r, (s.Put r).2 = "") ∧
    (∀ resp, (s.Txn resp).2 = "") ∧ (∀ r, (s.Watch r).2 = "") ∧
    (∀ r, (s.Grant r).2 = "") ∧ (∀ i, (s.Revoke i).2 = "") ∧
    (∀ r, (s.KeepAlive r).2 = "") ∧ (∀ r k, (s.TimeToLive r k).2 = "") ∧
    (∀ r, (s.Leases r).2 = "") ∧ (∀ rows, (s.printRows rows).2 = "") ∧
    (∀ role, (s.RoleAdd role).2 = "") ∧ (∀ role r, (s.RoleGet role r).2 = "") ∧
    (∀ rs, (s.RoleList rs).2 = "") ∧ (∀ role, (s.RoleDelete role).2 = "") ∧
    (∀ role, (s.RoleGrantPermission role).2 = "") ∧
    (∀ role key e, (s.RoleRevokePermission role key e).2 = "") ∧
    (∀ n, (s.UserAdd n).2 = "") ∧ (∀ n r, (s.UserGet n r).2 = "") ∧
    (s.UserChangePassword.2 = "") ∧ (∀ u role, (s.UserGrantRole u role).2 = "") ∧
    (∀ u role, (s.UserRevokeRole u role).2 = "") ∧ (∀ u, (s.UserDelete u).2 = "") ∧
    (∀ us, (s.UserList us).2 = "") ∧ (∀ r, (s.AuthStatus r).2 = "") := by
  refine ⟨?_, ?_, ?_, fun _ => rfl, fun _ => rfl, fun _ => rfl, txn_snd s,
    fun _ => rfl, fun _ => rfl, fun _ => rfl, fun _ => rfl, ?_, fun _ => rfl,
    fun _ => rfl, fun _ => rfl, fun _ _ => rfl, fun _ => rfl, fun _ => rfl,
    fun _ => rfl, ?_, fun _ => rfl, fun _ _ => rfl, rfl, fun _ _ => rfl,
    fun _ _ => rfl, fun _ => rfl, fun _ => rfl, fun _ => rfl⟩
  · unfold SimplePrinter.EndpointHealth
    have hf : (fun (acc : Output) h =>
        if h.error = "" then
          acc ++ emitOut (h.ep ++ " is healthy: successfully committed proposal: took = " ++
            h.took ++ "\n")
        else
          acc ++ emitErr (h.ep ++ " is unhealthy: failed to commit proposal: " ++
            h.error ++ "\n")) =
        fun (acc : Output) h => acc ++ (healthOutLine h, healthErrLine h) := by
      funext acc h
      by_cases hc : h.error = "" <;>
        simp [hc, healthOutLine, healthErrLine, emitOut, emitErr]
    rw [hf, foldl_outAppend (fun h => (healthOutLine h, healthErrLine h)),
      Output.empty_append]
    refine Prod.ext ?_ ?_
    · rw [outJoin_fst, List.map_map]
      rfl
    · rw [outJoin_snd, List.map_map]
      rfl
  · intro h hc
    exact ⟨by simp [healthOutLine, hc], by simp [healthErrLine, hc]⟩
  · intro h hc
    refine ⟨by simp [healthErrLine, hc], by simp [healthOutLine, hc], ?_⟩
    rw [show healthErrLine h =
      (h.ep ++ " is unhealthy: failed to commit proposal: ") ++ h.error ++ "\n" by
        simp [healthErrLine, hc, String.append_assoc]]
    exact strContains_intro _ _ _
  · intro r k
    unfold SimplePrinter.TimeToLive
    split <;> rfl
  · intro role key e
    unfold SimplePrinter.RoleRevokePermission
    split
    · rfl
    · split <;> rfl

theorem endpointHealth_stream_routing_witness :
    ((⟨false, false⟩ : SimplePrinter).EndpointHealth
        [⟨"e1", "", "1ms"⟩, ⟨"e2", "boom", "2ms"⟩] =
      (strJoin ([⟨"e1", "", "1ms"⟩, ⟨"e2", "boom", "2ms"⟩].map healthOutLine),
       strJoin ([⟨"e1", "", "1ms"⟩, ⟨"e2", "boom", "2ms"⟩].map healthErrLine))) ∧
    (healthOutLine ⟨"e1", "", "1ms"⟩ =
      "e1" ++ " is healthy: successfully committed proposal: took = " ++ "1ms" ++ "\n" ∧
     healthErrLine ⟨"e1", "", "1ms"⟩ = "") ∧
    (healthErrLine ⟨"e2", "boom", "2ms"⟩ =
      "e2" ++ " is unhealthy: failed to commit proposal: " ++ "boom" ++ "\n" ∧
     healthOutLine ⟨"e2", "boom", "2ms"⟩ = "" ∧
     strContains (healthErrLine ⟨"e2", "boom", "2ms"⟩) "boom") := by
  have h := endpointHealth_stream_routing ⟨false, false⟩
    [⟨"e1", "", "1ms"⟩, ⟨"e2", "boom", "2ms"⟩]
  exact ⟨h.1, h.2.1 ⟨"e1", "", "1ms"⟩ (by decide), h.2.2.1 ⟨"e2", "boom", "2ms"⟩ (by decide)⟩

/-- C5 counterexample: `RoleRevokePermission` is a role/user administration
rule for the "revoked" operation, yet its output with the same role name
varies with the key and range-end arguments: it is not a single fixed
template parameterized only by the role or user name, and it branches on
its input. -/
theorem roleRevoke_template_counterexample :
    RoleRevokePermission ⟨false, false⟩ "r" "k" "" ≠
      RoleRevokePermission ⟨false, false⟩ "r" "k" "\x00" ∧
    RoleRevokePermission ⟨false, false⟩ "r" "k" "\x00" ≠
      RoleRevokePermission ⟨false, false⟩ "r" "k" "e" := by
  decide

/-- C5 (amended): every role/user administration rule except
`RoleRevokePermission` emits exactly one fixed-template line parameterized
only by the role or user name(s); `RoleRevokePermission` also emits exactly
one line, but chooses among three templates according to the revoked range
(single key, bounded range, open-ended range), additionally parameterized by
the key and range end. -/
theorem admin_rules_templates (s : SimplePrinter) :
    (∀ role, s.RoleAdd role = emitOut ("Role " ++ role ++ " created\n")) ∧
    (∀ role, s.RoleDelete role = emitOut ("Role " ++ role ++ " deleted\n")) ∧
    (∀ role, s.RoleGrantPermission role = emitOut ("Role " ++ role ++ " updated\n")) ∧
    (∀ n, s.UserAdd n = emitOut ("User " ++ n ++ " created\n")) ∧
    (∀ u, s.UserDelete u = emitOut ("User " ++ u ++ " deleted\n")) ∧
    (∀ u role, s.UserGrantRole u role =
      emitOut ("Role " ++ role ++ " is granted to user " ++ u ++ "\n")) ∧
    (∀ u role, s.UserRevokeRole u role =
      emitOut ("Role " ++ role ++ " is revoked from user " ++ u ++ "\n")) ∧
    (s.UserChangePassword = emitOut "Password updated\n") ∧
    (∀ role key, s.RoleRevokePermission role key "" =
      emitOut ("Permission of key " ++ key ++ " is revoked from role " ++ role ++ "\n")) ∧
    (∀ role key, s.RoleRevokePermission role key "\x00" =
      emitOut ("Permission of range [" ++ key ++
        ", <open ended> is revoked from role " ++ role ++ "\n")) ∧
    (∀ role key endStr, endStr ≠ "" → endStr ≠ "\x00" →
      s.RoleRevokePermission role key endStr =
        emitOut ("Permission of range [" ++ key ++ ", " ++ endStr ++
          ") is revoked from role " ++ role ++ "\n")) := by
  refine ⟨fun _ => rfl, fun _ => rfl, fun _ => rfl, fun _ => rfl, fun _ => rfl,
    fun _ _ => rfl, fun _ _ => rfl, rfl, ?_, ?_, ?_⟩
  · intro role key
    unfold SimplePrinter.RoleRevokePermission
    rw [if_pos (by decide : ("" : String).length = 0)]
  · intro role key
    unfold SimplePrinter.RoleRevokePermission
    rw [if_neg (by decide : ¬("\x00" : String).length = 0),
      if_neg (by decide : ¬(("\x00" : String) ≠ "\x00"))]
  · intro role key endStr he h0
    unfold SimplePrinter.RoleRevokePermission
    rw [if_neg (fun hl => he (str_length_zero hl)), if_pos h0]

theorem admin_rules_templates_witness :
    (("e" : String) ≠ "") ∧ (("e" : String) ≠ "\x00") ∧
    (RoleRevokePermission ⟨false, false⟩ "r" "k" "e" =
      emitOut ("Permission of range [" ++ "k" ++ ", " ++ "e" ++
        ") is revoked from role " ++ "r" ++ "\n")) ∧
    (RoleAdd ⟨false, false⟩ "r" = emitOut ("Role " ++ "r" ++ " created\n")) :=
  ⟨by decide, by decide,
    (admin_rules_templates ⟨false, false⟩).2.2.2.2.2.2.2.2.2.2 "r" "k" "e"
      (by decide) (by decide),
    (admin_rules_templates ⟨false, false⟩).1 "r"⟩

set_option maxRecDepth 10000 in
/-- C6 counterexample: on the non-expired branch with key listing requested,
the attached keys are rendered space-separated inside brackets (Go's `%v` of
a string slice), not comma-separated: for keys `a` and `b` the output
contains `[a b]` and does not contain the comma-separated rendering
`[a, b]`. -/
theorem attachedKeys_comma_counterexample :
    (TimeToLive ⟨false, false⟩ ⟨1, 5, 3, [[97], [98]]⟩ true).1 =
      "lease 0000000000000001 granted with TTL(5s), remaining(3s), attached keys([a b])\n" ∧
    ¬ strContains (TimeToLive ⟨false, false⟩ ⟨1, 5, 3, [[97], [98]]⟩ true).1
        ("[" ++ String.intercalate ", " [rawStr [97], rawStr [98]] ++ "]") := by
  decide

/-- C6 (amended): on the non-expired branch with key listing requested, the
attached key list is rendered as a bracketed, space-separated sequence of
the keys' raw text form, and the whole `TimeToLive` output is identical for
any two formatter configurations — in particular it does not depend on the
hex-encode flag. -/
theorem attachedKeys_raw_space_separated (s t : SimplePrinter)
    (resp : LeaseTimeToLiveResponse) :
    (∀ keys, s.TimeToLive resp keys = t.TimeToLive resp keys) ∧
    (¬(resp.grantedTTL = 0 ∧ resp.ttl = -1) →
      (s.TimeToLive resp true).1 =
        "lease " ++ hex16 resp.id ++ " granted with TTL(" ++ intDec resp.grantedTTL ++
          "s), remaining(" ++ intDec resp.ttl ++ "s)" ++
          (", attached keys([" ++ String.intercalate " " (resp.keys.map rawStr) ++ "])") ++
          "\n") := by
  refine ⟨fun _ => rfl, fun h => ?_⟩
  unfold SimplePrinter.TimeToLive
  rw [if_neg h]
  apply String.ext
  simp [goStrSliceV, emitOut, String.data_append]

theorem attachedKeys_raw_space_separated_witness :
    ¬((5 : Int) = 0 ∧ (3 : Int) = -1) ∧
    (TimeToLive ⟨true, true⟩ ⟨1, 5, 3, [[97], [98]]⟩ true).1 =
      "lease " ++ hex16 1 ++ " granted with TTL(" ++ intDec 5 ++
        "s), remaining(" ++ intDec 3 ++ "s)" ++
        (", attached keys([" ++
          String.intercalate " " (([[97], [98]] : List (List Nat)).map rawStr) ++ "])") ++
        "\n" :=
  ⟨by decide,
    (attachedKeys_raw_space_separated ⟨true, true⟩ ⟨false, false⟩
      ⟨1, 5, 3, [[97], [98]]⟩).2 (by decide)⟩

theorem not_mem_hex16 {c : Char} (hc : ¬ hexCh c) (n : Nat) : c ∉ (hex16 n).data :=
  fun hm => hc (hex16_chars n c hm)

theorem count_hex16 {c : Char} (hc : ¬ hexCh c) (n : Nat) : (hex16 n).data.count c = 0 :=
  List.count_eq_zero.mpr (not_mem_hex16 hc n)

theorem not_mem_intDec {c : Char} (h1 : ¬ digitCh c) (h2 : c ≠ '-') (i : Int) :
    c ∉ (intDec i).data := by
  intro hm
  rcases intDec_chars i c hm with h | h
  · exact h1 h
  · exact h2 h

theorem count_intDec {c : Char} (h1 : ¬ digitCh c) (h2 : c ≠ '-') (i : Int) :
    (intDec i).data.count c = 0 :=
  List.count_eq_zero.mpr (not_mem_intDec h1 h2 i)

/-- C4: if the granted TTL is zero and the remaining TTL is the expired
sentinel `-1`, `TimeToLive` prints exactly one line containing
`already expired` and no granted/remaining TTL figures (no `TTL(` and no
`remaining(` text), returning without falling through; for any other
combination it prints one line containing both the granted and the remaining
TTL and no `expired` text (stated for the query without key listing, the
shape of the spec's test vector). -/
theorem timeToLive_branches (s : SimplePrinter) (resp : LeaseTimeToLiveResponse) :
    (resp.grantedTTL = 0 ∧ resp.ttl = -1 → ∀ keys,
      (s.TimeToLive resp keys).1 =
        "lease " ++ hex16 resp.id ++ " already expired\n" ∧
      lineCount (s.TimeToLive resp keys).1 = 1 ∧
      strContains (s.TimeToLive resp keys).1 "already expired" ∧
      ¬ strContains (s.TimeToLive resp keys).1 "TTL(" ∧
      ¬ strContains (s.TimeToLive resp keys).1 "remaining(") ∧
    (¬(resp.grantedTTL = 0 ∧ resp.ttl = -1) →
      (s.TimeToLive resp false).1 =
        "lease " ++ hex16 resp.id ++ " granted with TTL(" ++ intDec resp.grantedTTL ++
          "s), remaining(" ++ intDec resp.ttl ++ "s)" ++ "\n" ∧
      strContains (s.TimeToLive resp false).1
        ("TTL(" ++ intDec resp.grantedTTL ++ "s)") ∧
      strContains (s.TimeToLive resp false).1
        ("remaining(" ++ intDec resp.ttl ++ "s)") ∧
      lineCount (s.TimeToLive resp false).1 = 1 ∧
      ¬ strContains (s.TimeToLive resp false).1 "expired") := by
  constructor
  · intro h keys
    have hout : (s.TimeToLive resp keys).1 =
        "lease " ++ hex16 resp.id ++ " already expired\n" := by
      unfold SimplePrinter.TimeToLive
      rw [if_pos h]
      rfl
    refine ⟨hout, ?_, ?_, ?_, ?_⟩
    · rw [hout]
      unfold lineCount
      simp only [String.data_append, List.count_append]
      rw [count_hex16 (by decide : ¬ hexCh '\n') resp.id]
      decide
    · rw [hout]
      exact strContains_of_eq ("lease " ++ hex16 resp.id ++ " ") "\n"
        (by apply String.ext; simp [String.data_append])
    · rw [hout]
      apply not_strContains_of_char '(' (by decide)
      apply List.count_eq_zero.mp
      simp only [String.data_append, List.count_append]
      rw [count_hex16 (by decide : ¬ hexCh '(') resp.id]
      decide
    · rw [hout]
      apply not_strContains_of_char '(' (by decide)
      apply List.count_eq_zero.mp
      simp only [String.data_append, List.count_append]
      rw [count_hex16 (by decide : ¬ hexCh '(') resp.id]
      decide
  · intro h
    have hout : (s.TimeToLive resp false).1 =
        "lease " ++ hex16 resp.id ++ " granted with TTL(" ++ intDec resp.grantedTTL ++
          "s), remaining(" ++ intDec resp.ttl ++ "s)" ++ "\n" := by
      unfold SimplePrinter.TimeToLive
      rw [if_neg h]
      rfl
    refine ⟨hout, ?_, ?_, ?_, ?_⟩
    · rw [hout]
      exact strContains_of_eq ("lease " ++ hex16 resp.id ++ " granted with ")
        (", remaining(" ++ intDec resp.ttl ++ "s)" ++ "\n")
        (by apply String.ext; simp [String.data_append])
    · rw [hout]
      exact strContains_of_eq
        ("lease " ++ hex16 resp.id ++ " granted with TTL(" ++
          intDec resp.grantedTTL ++ "s), ") "\n"
        (by apply String.ext; simp [String.data_append])
    · rw [hout]
      unfold lineCount
      simp only [String.data_append, List.count_append]
      rw [count_hex16 (by decide : ¬ hexCh '\n') resp.id,
        count_intDec (by decide) (by decide) resp.grantedTTL,
        count_intDec (by decide) (by decide) resp.ttl]
      decide
    · rw [hout]
      apply not_strContains_of_char 'x' (by decide)
      apply List.count_eq_zero.mp
      simp only [String.data_append, List.count_append]
      rw [count_hex16 (by decide : ¬ hexCh 'x') resp.id,
        count_intDec (by decide) (by decide) resp.grantedTTL,
        count_intDec (by decide) (by decide) resp.ttl]
      decide

theorem timeToLive_branches_witness :
    ((0 : Int) = 0 ∧ (-1 : Int) = -1) ∧
    ((TimeToLive ⟨false, false⟩ ⟨1, 0, -1, []⟩ false).1 =
        "lease " ++ hex16 1 ++ " already expired\n" ∧
      lineCount (TimeToLive ⟨false, false⟩ ⟨1, 0, -1, []⟩ false).1 = 1 ∧
      strContains (TimeToLive ⟨false, false⟩ ⟨1, 0, -1, []⟩ false).1 "already expired" ∧
      ¬ strContains (TimeToLive ⟨false, false⟩ ⟨1, 0, -1, []⟩ false).1 "TTL(" ∧
      ¬ strContains (TimeToLive ⟨false, false⟩ ⟨1, 0, -1, []⟩ false).1 "remaining(") ∧
    ¬((5 : Int) = 0 ∧ (3 : Int) = -1) ∧
    ((TimeToLive ⟨false, false⟩ ⟨2, 5, 3, []⟩ false).1 =
        "lease " ++ hex16 2 ++ " granted with TTL(" ++ intDec 5 ++
          "s), remaining(" ++ intDec 3 ++ "s)" ++ "\n" ∧
      strContains (TimeToLive ⟨false, false⟩ ⟨2, 5, 3, []⟩ false).1
        ("TTL(" ++ intDec 5 ++ "s)") ∧
      strContains (TimeToLive ⟨false, false⟩ ⟨2, 5, 3, []⟩ false).1
        ("remaining(" ++ intDec 3 ++ "s)") ∧
      lineCount (TimeToLive ⟨false, false⟩ ⟨2, 5, 3, []⟩ false).1 = 1 ∧
      ¬ strContains (TimeToLive ⟨false, false⟩ ⟨2, 5, 3, []⟩ false).1 "expired") :=
  ⟨⟨rfl, rfl⟩,
   (timeToLive_branches ⟨false, false⟩ ⟨1, 0, -1, []⟩).1 (by decide) false,
   by decide,
   (timeToLive_branches ⟨false, false⟩ ⟨2, 5, 3, []⟩).2 (by decide)⟩

end EtcdSimple
